import Mathlib

/-!
Shallow embedding of the roadmap aggregation pipeline of `jira-roadmap`
(`src/jira_roadmap/roadmap.py`, with the data model of
`src/jira_roadmap/models.py` and the collaborator error surface of
`src/jira_roadmap/jira_client.py`), together with theorems settling the
specification claims about it.

Python dicts accessed only through `.get(k, default)` are embedded as
structures whose fields carry that default; the network collaborator
(`JiraClient`) is embedded as a record of the responses of the four
`search_roadmap_issues` calls and of `get_project_names`, each response
being either a value or one of the client's error conditions.
-/

set_option maxHeartbeats 1000000

namespace JiraRoadmap

/-- Substring test: Python's `pat in s` on strings. -/
def strContainsSub (s pat : String) : Bool :=
  s.data.tails.any (fun t => pat.data.isPrefixOf t)

/-- ASCII lower-casing of one character, as Python `str.lower` acts on ASCII. -/
def charLower (c : Char) : Char :=
  if 65 ≤ c.toNat ∧ c.toNat ≤ 90 then Char.ofNat (c.toNat + 32) else c

/-- Python `s.lower()` (the repository only ever lower-cases ASCII names). -/
def strLower (s : String) : String := ⟨s.data.map charLower⟩

/-- Python `s[:10]` : the first 10 characters of a string. -/
def strTake10 (s : String) : String := ⟨s.data.take 10⟩

/-- Python `s.rstrip("/")`. -/
def rstripSlash (s : String) : String := ⟨(s.data.reverse.dropWhile (· = '/')).reverse⟩

/-- Python `key.split("-")[0]`: the part of an issue key before the first dash. -/
def projectKeyOf (k : String) : String := ⟨k.data.takeWhile (fun c => c ≠ '-')⟩

/-- A proleptic-Gregorian calendar date, as `datetime.date` holds one. -/
structure Date where
  year : Nat
  month : Nat
  day : Nat
deriving DecidableEq, Repr

/-- `datetime.date` ordering: lexicographic on (year, month, day). -/
def Date.le (a b : Date) : Prop :=
  a.year < b.year ∨ (a.year = b.year ∧ (a.month < b.month ∨ (a.month = b.month ∧ a.day ≤ b.day)))

/-- Strict `datetime.date` ordering. -/
def Date.lt (a b : Date) : Prop :=
  a.year < b.year ∨ (a.year = b.year ∧ (a.month < b.month ∨ (a.month = b.month ∧ a.day < b.day)))

instance (a b : Date) : Decidable (Date.le a b) := by unfold Date.le; infer_instance

instance (a b : Date) : Decidable (Date.lt a b) := by unfold Date.lt; infer_instance

/-- Gregorian leap-year rule, as `datetime` uses. -/
def isLeap (y : Nat) : Bool := y % 4 = 0 && (y % 100 != 0 || y % 400 = 0)

/-- Number of days of month `m` of year `y` in the proleptic Gregorian calendar. -/
def daysInMonth (y m : Nat) : Nat :=
  if m = 2 then (if isLeap y then 29 else 28)
  else if m = 4 ∨ m = 6 ∨ m = 9 ∨ m = 11 then 30
  else 31

/-- The dates representable by `datetime.date` (year ≥ 1, calendar-valid). -/
def validDate (d : Date) : Prop :=
  1 ≤ d.year ∧ 1 ≤ d.month ∧ d.month ≤ 12 ∧ 1 ≤ d.day ∧ d.day ≤ daysInMonth d.year d.month

instance (d : Date) : Decidable (validDate d) := by unfold validDate; infer_instance

/-- Numeric value of a decimal digit character. -/
def digitVal (c : Char) : Nat := c.toNat - 48

/-- Strict `YYYY-MM-DD` parsing on the character list of the input, as
`date.fromisoformat` performs for calendar dates: exactly ten characters,
digits and dashes in place, month and day within calendar range. -/
def parseIsoList (l : List Char) : Option Date :=
  match l with
  | [y1, y2, y3, y4, h1, m1, m2, h2, d1, d2] =>
    if y1.isDigit && y2.isDigit && y3.isDigit && y4.isDigit && h1 = '-'
        && m1.isDigit && m2.isDigit && h2 = '-' && d1.isDigit && d2.isDigit then
      let y := ((digitVal y1 * 10 + digitVal y2) * 10 + digitVal y3) * 10 + digitVal y4
      let m := digitVal m1 * 10 + digitVal m2
      let d := digitVal d1 * 10 + digitVal d2
      if 1 ≤ y ∧ 1 ≤ m ∧ m ≤ 12 ∧ 1 ≤ d ∧ d ≤ daysInMonth y m then
        some ⟨y, m, d⟩
      else none
    else none
  | _ => none

/-- `date.fromisoformat` restricted to calendar dates, with failure as `none`. -/
def parseIso (s : String) : Option Date := parseIsoList s.data

/-- A field bag of custom date fields: Python dict from field id to a value
that is a string or `None`; an absent key and a `None` value are both
embedded so that lookup yields `none`. -/
abbrev FieldBag := List (String × Option String)

/-- First-match association-list lookup: Python `d.get(k)` (`none` = absent). -/
def fbLookup {α : Type} (l : List (String × α)) (k : String) : Option α :=
  match l with
  | [] => none
  | (k', v) :: t => if k' = k then some v else fbLookup t k

/-- Python dict assignment `d[k] = v`: replace in place if the key exists
(keeping its original position, as dict insertion order does), else append. -/
def dictSet {α : Type} (l : List (String × α)) (k : String) (v : α) : List (String × α) :=
  match l with
  | [] => [(k, v)]
  | (k', v') :: t => if k' = k then (k', v) :: t else (k', v') :: dictSet t k v

/-- Python `fields.get(field_id)` merged over absence and null. -/
def fieldValue (fields : FieldBag) (field_id : String) : Option String :=
  (fbLookup fields field_id).getD none

/-- `_parse_date_field` (roadmap.py lines 31-40): `None` for an absent, null
or empty value, else `date.fromisoformat(str(value)[:10])` with any parse
failure caught to `None`. -/
def parse_date_field (fields : FieldBag) (field_id : String) : Option Date :=
  match fieldValue fields field_id with
  | none => none
  | some v => if v = "" then none else parseIso (strTake10 v)

/-- `statusCategory` sub-record of a JIRA status field (all reads use
`.get(k, "")`, so absent keys behave as empty strings). -/
structure StatusCategory where
  key : String := ""
  name : String := ""
deriving DecidableEq, Repr

/-- A JIRA status field record. -/
structure StatusField where
  name : String := ""
  statusCategory : StatusCategory := {}
deriving DecidableEq, Repr

/-- `_get_status_category` (roadmap.py lines 43-63). -/
def get_status_category (status_field : StatusField) : String :=
  if strContainsSub (strLower status_field.name) "cancel" then "cancelled"
  else
    let key := strLower status_field.statusCategory.key
    if key = "new" ∨ key = "indeterminate" ∨ key = "done" then key
    else
      let name := strLower status_field.statusCategory.name
      if strContainsSub name "done" then "done"
      else if strContainsSub name "progress" ∨ strContainsSub name "indeterminate" then "indeterminate"
      else "new"

/-- A linked or child issue as read through `.get` chains: its key
(`.get("key", "")`) and its declared issue type name
(`.get("fields", {}).get("issuetype", {}).get("name", "")`). -/
structure LinkedIssue where
  key : String := ""
  issuetypeName : String := ""
deriving DecidableEq, Repr

/-- One entry of an issue's `issuelinks` list. -/
structure Link where
  typeName : String := ""
  inwardIssue : Option LinkedIssue := none
  outwardIssue : Option LinkedIssue := none
deriving DecidableEq, Repr

/-- A raw issue dict as returned by `JiraClient.search_roadmap_issues`:
`key` is indexed directly (`issue["key"]`), everything else is read from
`issue.get("fields", {})` through `.get` with the defaults recorded here.
`parentKey` is `fields.get("parent", {}).get("key", "")`; `dateFields`
carries the custom start/end date fields keyed by field id. -/
structure RawIssue where
  key : String
  summary : String := ""
  status : StatusField := {}
  issuelinks : List Link := []
  subtasks : List LinkedIssue := []
  parentKey : String := ""
  dateFields : FieldBag := []
deriving DecidableEq, Repr

/-- The error conditions `JiraClient.search_roadmap_issues` can raise
(jira_client.py): `AuthenticationError`, `RateLimitError`, `ConnectionError`
and the `ValueError` used for malformed JQL. -/
inductive JiraClientError where
  | authenticationError : JiraClientError
  | rateLimitError : JiraClientError
  | connectionError (msg : String) : JiraClientError
  | valueError (msg : String) : JiraClientError
deriving DecidableEq, Repr

/-- The named errors `fetch_roadmap` raises past the configuration stage
(exceptions.py; the configuration errors are raised before any code the
claims reference and are not modelled). -/
inductive RoadmapError where
  | jiraAuthError (msg : String)
  | jiraRateLimitError (msg : String)
  | jiraConnectionError (msg : String)
  | invalidJqlError (msg : String)
  | noIssuesFoundError (msg : String)
deriving DecidableEq, Repr

/-- The collaborator, embedded as the fixed responses of the four
`search_roadmap_issues` calls `fetch_roadmap` issues (in order: the primary
initiative search, the parent-field epic query, the bulk epic fetch, the
child-story fetch) and the `get_project_names` resolver, which never raises
(jira_client.py lines 114-129 fall back per key). -/
structure JiraClientResponses where
  searchInitiatives : Except JiraClientError (List RawIssue)
  searchParentChildEpics : Except JiraClientError (List RawIssue)
  searchEpicsByKey : Except JiraClientError (List RawIssue)
  searchStories : Except JiraClientError (List RawIssue)
  projectNames : List String → List (String × String)

/-- Configuration values `fetch_roadmap` uses after validation. -/
structure Config where
  startDateField : String
  endDateField : String
  jiraUrl : String

/-- `RoadmapEpic` (models.py lines 7-21). -/
structure RoadmapEpic where
  key : String
  title : String
  status : String
  status_category : String
  start_date : Option Date
  end_date : Option Date
  url : String
  done_stories : Nat := 0
  cancelled_stories : Nat := 0
  inprogress_stories : Nat := 0
  total_stories : Nat := 0
deriving DecidableEq, Repr

/-- `RoadmapInitiative` (models.py lines 24-35). -/
structure RoadmapInitiative where
  key : String
  title : String
  status : String
  status_category : String
  start_date : Option Date
  end_date : Option Date
  epics : List RoadmapEpic
  url : String
deriving DecidableEq, Repr

/-- The result record as `fetch_roadmap` constructs it (roadmap.py lines
361-370) and as `roadmap_result_to_dict` reads it: the dataclass declared in
models.py lines 38-47 carries only the first five of these fields; the
mismatch is the subject of the field-list definitions further below. -/
structure RoadmapResult where
  initiatives : List RoadmapInitiative
  jql_query : String
  timeline_start : Date
  timeline_end : Date
  jira_url : String
  initiative_deps : List (String × String)
  epic_deps : List (String × String)
  project_names : List (String × String)
deriving DecidableEq, Repr

/-- Python set insertion: `s.add(k)` observed as an insertion-ordered list. -/
def setAdd (s : List String) (k : String) : List String :=
  if k ∈ s then s else s ++ [k]

/-- The guard `if link_types and link_type_name not in link_types: continue`
(roadmap.py line 161): skip only when the allow-list is a non-empty list
that does not contain the link type name. -/
def linkTypeSkips (link_types : Option (List String)) (name : String) : Bool :=
  match link_types with
  | none => false
  | some ts => !ts.isEmpty && !ts.contains name

/-- Epic keys contributed by one direction of a link (roadmap.py lines
165-174): the target, if present, with declared type "Epic" and a non-empty
key. -/
def epicTargetsOfDir (li : Option LinkedIssue) : List String :=
  match li with
  | none => []
  | some t => if t.issuetypeName = "Epic" ∧ t.key ≠ "" then [t.key] else []

/-- The outward-link dependency collection step (roadmap.py lines 150-158 and
224-231): record `(src, target)` if the outward target exists, has a
non-empty key belonging to `keys`, differs from `src`, and the pair is new.
The Python code keeps a companion `seen` set whose content always equals the
content of the list, so the membership test is taken on the list itself. -/
def outwardDepStep (keys : List String) (src : String)
    (deps : List (String × String)) (link : Link) : List (String × String) :=
  match link.outwardIssue with
  | none => deps
  | some o =>
    if o.key ≠ "" ∧ o.key ∈ keys ∧ o.key ≠ src then
      (if (src, o.key) ∈ deps then deps else deps ++ [(src, o.key)])
    else deps

/-- One iteration of the `for link in issue_links` loop of roadmap.py lines
145-174, acting on the state (initiative deps, this initiative's epic list,
global epic key set). -/
def linkStep (initKeys : List String) (skipLink : String → Bool) (issue_key : String)
    (st : List (String × String) × List String × List String) (link : Link) :
    List (String × String) × List String × List String :=
  let deps := outwardDepStep initKeys issue_key st.1 link
  if skipLink link.typeName then (deps, st.2.1, st.2.2)
  else
    let ts := epicTargetsOfDir link.inwardIssue ++ epicTargetsOfDir link.outwardIssue
    (deps, st.2.1 ++ ts, ts.foldl setAdd st.2.2)

/-- One iteration of the subtask loop of roadmap.py lines 177-183, acting on
(this initiative's epic list, global epic key set). -/
def subtaskStep (st : List String × List String) (sub : LinkedIssue) :
    List String × List String :=
  if sub.issuetypeName = "Epic" ∧ sub.key ≠ "" ∧ sub.key ∉ st.1 then
    (st.1 ++ [sub.key], setAdd st.2 sub.key)
  else st

/-- One iteration of the outer `for issue in raw_initiatives` loop of
roadmap.py lines 139-185, acting on (initiative deps, the
`initiative_epic_links` dict, the global epic key set). -/
def issueStep (initKeys : List String) (skipLink : String → Bool)
    (acc : List (String × String) × List (String × List String) × List String)
    (issue : RawIssue) :
    List (String × String) × List (String × List String) × List String :=
  let st := issue.issuelinks.foldl (linkStep initKeys skipLink issue.key) (acc.1, [], acc.2.2)
  let st2 := issue.subtasks.foldl subtaskStep (st.2.1, st.2.2)
  (st.1, dictSet acc.2.1 issue.key st2.1, st2.2)

/-- Phase one of the hierarchy resolution (roadmap.py lines 133-185). -/
def buildInitiativeLinks (link_types : Option (List String)) (raws : List RawIssue) :
    List (String × String) × List (String × List String) × List String :=
  raws.foldl (issueStep (raws.map (·.key)) (linkTypeSkips link_types)) ([], [], [])

/-- One iteration of the parent-field child-epic merge (roadmap.py lines
196-204), acting on (the `initiative_epic_links` dict, the epic key set). -/
def parentChildStep (st : List (String × List String) × List String)
    (child : RawIssue) : List (String × List String) × List String :=
  match fbLookup st.1 child.parentKey with
  | none => st
  | some existing =>
    if child.key ∈ existing then st
    else (dictSet st.1 child.parentKey (existing ++ [child.key]), setAdd st.2 child.key)

/-- Parent-field child-epic merge over the auxiliary query result. -/
def addParentChildEpics (links : List (String × List String)) (keys : List String)
    (children : List RawIssue) : List (String × List String) × List String :=
  children.foldl parentChildStep (links, keys)

/-- The `epic_data` dict built from the bulk epic fetch (roadmap.py lines
216-217): keyed by issue key, last write wins, insertion-ordered. -/
def buildEpicData (raw_epics : List RawIssue) : List (String × RawIssue) :=
  raw_epics.foldl (fun d e => dictSet d e.key e) []

/-- Epic-level dependency extraction (roadmap.py lines 219-231). -/
def collectEpicDeps (epicKeys : List String) (epic_data : List (String × RawIssue)) :
    List (String × String) :=
  epic_data.foldl
    (fun deps entry => entry.2.issuelinks.foldl (outwardDepStep epicKeys entry.1) deps) []

/-- Per-epic child counters (roadmap.py line 248), all zero by default. -/
structure StoryCounts where
  done : Nat := 0
  cancelled : Nat := 0
  inprogress : Nat := 0
  total : Nat := 0
deriving DecidableEq, Repr

/-- One iteration of the story tally loop (roadmap.py lines 243-257). -/
def storyStep (epicKeys : List String) (sc : List (String × StoryCounts))
    (story : RawIssue) : List (String × StoryCounts) :=
  let parent_key := story.parentKey
  if parent_key = "" ∨ parent_key ∉ epicKeys then sc
  else
    let counts := (fbLookup sc parent_key).getD {}
    let counts := { counts with total := counts.total + 1 }
    let cat := get_status_category story.status
    let counts :=
      if cat = "done" then { counts with done := counts.done + 1 }
      else if cat = "cancelled" then { counts with cancelled := counts.cancelled + 1 }
      else if cat = "indeterminate" then { counts with inprogress := counts.inprogress + 1 }
      else counts
    dictSet sc parent_key counts

/-- The child-progress rollup over the story query result. -/
def tallyStories (epicKeys : List String) (stories : List RawIssue) :
    List (String × StoryCounts) :=
  stories.foldl (storyStep epicKeys) []

/-- Construction of one `RoadmapEpic` (roadmap.py lines 274-297). -/
def buildEpic (cfg : Config) (jira_url : String)
    (story_counts : List (String × StoryCounts)) (epic_key : String)
    (epic_raw : RawIssue) : RoadmapEpic :=
  let counts := (fbLookup story_counts epic_key).getD {}
  { key := epic_key
    title := epic_raw.summary
    status := epic_raw.status.name
    status_category := get_status_category epic_raw.status
    start_date := parse_date_field epic_raw.dateFields cfg.startDateField
    end_date := parse_date_field epic_raw.dateFields cfg.endDateField
    url := jira_url ++ "/browse/" ++ epic_key
    done_stories := counts.done
    cancelled_stories := counts.cancelled
    inprogress_stories := counts.inprogress
    total_stories := counts.total }

/-- One iteration of the per-initiative epic-building loop (roadmap.py
lines 270-298): a key whose epic detail is missing from `epic_data` is
skipped (`if not epic_raw: continue`). -/
def epicsStep (cfg : Config) (jira_url : String)
    (story_counts : List (String × StoryCounts)) (epic_data : List (String × RawIssue))
    (es : List RoadmapEpic) (k : String) : List RoadmapEpic :=
  match fbLookup epic_data k with
  | none => es
  | some raw => es ++ [buildEpic cfg jira_url story_counts k raw]

/-- The per-initiative epic-building loop (roadmap.py lines 269-298). -/
def epicsOfInitiative (cfg : Config) (jira_url : String)
    (story_counts : List (String × StoryCounts)) (epic_data : List (String × RawIssue))
    (epicKeyList : List String) : List RoadmapEpic :=
  epicKeyList.foldl (epicsStep cfg jira_url story_counts epic_data) []

/-- Python `min` over a list of dates (first element, replaced on strictly
smaller candidates); `none` on an empty list, which the call sites guard. -/
def dateListMin : List Date → Option Date
  | [] => none
  | d :: ds => some (ds.foldl (fun acc x => if Date.lt x acc then x else acc) d)

/-- Python `max` over a list of dates. -/
def dateListMax : List Date → Option Date
  | [] => none
  | d :: ds => some (ds.foldl (fun acc x => if Date.lt acc x then x else acc) d)

/-- Construction of one `RoadmapInitiative` (roadmap.py lines 263-331):
the initiative dates come from its epics, each boundary known only when
every epic carries it. -/
def buildInitiative (cfg : Config) (jira_url : String)
    (links : List (String × List String)) (epic_data : List (String × RawIssue))
    (story_counts : List (String × StoryCounts)) (issue : RawIssue) :
    RoadmapInitiative :=
  let epics := epicsOfInitiative cfg jira_url story_counts epic_data
    ((fbLookup links issue.key).getD [])
  let epic_starts := epics.filterMap (·.start_date)
  let epic_ends := epics.filterMap (·.end_date)
  let all_have_start := !epics.isEmpty && epics.all (fun e => e.start_date.isSome)
  let all_have_end := !epics.isEmpty && epics.all (fun e => e.end_date.isSome)
  { key := issue.key
    title := issue.summary
    status := issue.status.name
    status_category := get_status_category issue.status
    start_date := if all_have_start then (dateListMin epic_starts).getD ⟨0, 0, 0⟩ |> some else none
    end_date := if all_have_end then (dateListMax epic_ends).getD ⟨0, 0, 0⟩ |> some else none
    epics := epics
    url := jira_url ++ "/browse/" ++ issue.key }

/-- The `all_dates` contribution of one built initiative, in the order the
loop of roadmap.py lines 263-319 appends: per epic its start then end when
present, then the initiative's derived start and end when present. -/
def initiativeDates (init : RoadmapInitiative) : List Date :=
  (init.epics.map (fun e => e.start_date.toList ++ e.end_date.toList)).flatten
    ++ init.start_date.toList ++ init.end_date.toList

/-- `date(today.year + (future_month - 1) // 12, (future_month - 1) % 12 + 1, 1)`
with `future_month = today.month + 9` (roadmap.py lines 344-345). -/
def nineMonthsOut (today : Date) : Date :=
  let future_month := today.month + 9
  ⟨today.year + (future_month - 1) / 12, (future_month - 1) % 12 + 1, 1⟩

/-- `d + timedelta(days=1)` on the proleptic Gregorian calendar. -/
def nextDay (d : Date) : Date :=
  if d.day < daysInMonth d.year d.month then ⟨d.year, d.month, d.day + 1⟩
  else if d.month < 12 then ⟨d.year, d.month + 1, 1⟩
  else ⟨d.year + 1, 1, 1⟩

/-- `d - timedelta(days=1)` on the proleptic Gregorian calendar. -/
def prevDay (d : Date) : Date :=
  if 1 < d.day then ⟨d.year, d.month, d.day - 1⟩
  else if 1 < d.month then ⟨d.year, d.month - 1, daysInMonth d.year (d.month - 1)⟩
  else ⟨d.year - 1, 12, 31⟩

/-- Timeline bound computation (roadmap.py lines 333-351): min/max of the
date pool (current-year defaults when empty), the nine-month floor on the
end, then the outward padding of both bounds to month starts. -/
def computeTimeline (today : Date) (all_dates : List Date) : Date × Date :=
  let tsRaw :=
    match dateListMin all_dates with
    | some mn => mn
    | none => ⟨today.year, 1, 1⟩
  let teRaw :=
    match dateListMax all_dates with
    | some mx => mx
    | none => ⟨today.year, 12, 31⟩
  let nmo := nineMonthsOut today
  let te := if Date.lt teRaw nmo then nmo else teRaw
  let timeline_start := { prevDay { tsRaw with day := 1 } with day := 1 }
  let timeline_end :=
    { nextDay (nextDay (nextDay (nextDay (nextDay { te with day := 28 })))) with day := 1 }
  (timeline_start, timeline_end)

/-- Lexicographic code-point comparison of character lists. -/
def charListLe : List Char → List Char → Bool
  | [], _ => true
  | _ :: _, [] => false
  | a :: as, b :: bs =>
    if a.toNat = b.toNat then charListLe as bs else a.toNat < b.toNat

/-- Lexicographic code-point comparison of strings, as Python compares them. -/
def strBle (a b : String) : Bool := charListLe a.data b.data

/-- Insertion of a string into a sorted list (ascending code-point order). -/
def insertSorted (x : String) : List String → List String
  | [] => [x]
  | y :: ys => if strBle x y then x :: y :: ys else y :: insertSorted x ys

/-- Python `sorted` on the project-key set. -/
def sortStrings (l : List String) : List String :=
  l.foldl (fun acc x => insertSorted x acc) []

/-- The project-key prefix collection of roadmap.py lines 354-358. -/
def collectProjectKeys (inits : List RoadmapInitiative) : List String :=
  inits.foldl
    (fun s init =>
      init.epics.foldl (fun s e => setAdd s (projectKeyOf e.key))
        (setAdd s (projectKeyOf init.key))) []

/-- The `try/except` of every auxiliary call (roadmap.py lines 191-194,
210-214, 238-241): all four client error conditions are caught and the
result treated as empty. -/
def auxResult (resp : Except JiraClientError (List RawIssue)) : List RawIssue :=
  match resp with
  | .ok l => l
  | .error _ => []

/-- The hierarchy resolution (roadmap.py lines 133-204): the link/subtask
phase followed by the parent-field merge. Returns (initiative deps, the
`initiative_epic_links` dict, the epic key set). -/
def hierarchyPhase (client : JiraClientResponses) (link_types : Option (List String))
    (raws : List RawIssue) :
    List (String × String) × List (String × List String) × List String :=
  let p1 := buildInitiativeLinks link_types raws
  let p2 := addParentChildEpics p1.2.1 p1.2.2 (auxResult client.searchParentChildEpics)
  (p1.1, p2.1, p2.2)

/-- An auxiliary bulk query guarded by `if epic_keys_set:` (roadmap.py lines
208 and 236): not issued at all when no epic keys were discovered. -/
def guardedAux (epicKeys : List String) (resp : Except JiraClientError (List RawIssue)) :
    List RawIssue :=
  if epicKeys.isEmpty then [] else auxResult resp

/-- The `epic_data` dict of roadmap.py lines 206-217. -/
def epicDataOf (client : JiraClientResponses) (link_types : Option (List String))
    (raws : List RawIssue) : List (String × RawIssue) :=
  buildEpicData (guardedAux (hierarchyPhase client link_types raws).2.2 client.searchEpicsByKey)

/-- The `story_counts` dict of roadmap.py lines 235-257. -/
def storyCountsOf (client : JiraClientResponses) (link_types : Option (List String))
    (raws : List RawIssue) : List (String × StoryCounts) :=
  tallyStories (hierarchyPhase client link_types raws).2.2
    (guardedAux (hierarchyPhase client link_types raws).2.2 client.searchStories)

/-- The built initiative list of roadmap.py lines 259-331. -/
def initiativesOf (cfg : Config) (client : JiraClientResponses)
    (link_types : Option (List String)) (raws : List RawIssue) :
    List RoadmapInitiative :=
  raws.map (buildInitiative cfg (rstripSlash cfg.jiraUrl)
    (hierarchyPhase client link_types raws).2.1
    (epicDataOf client link_types raws) (storyCountsOf client link_types raws))

/-- Assembly of the `RoadmapResult` from a non-empty primary search result
(roadmap.py lines 130-370). -/
def assembleRoadmap (cfg : Config) (client : JiraClientResponses) (today : Date)
    (jql : String) (link_types : Option (List String)) (raws : List RawIssue) :
    RoadmapResult :=
  let inits := initiativesOf cfg client link_types raws
  let bounds := computeTimeline today ((inits.map initiativeDates).flatten)
  { initiatives := inits
    jql_query := jql
    timeline_start := bounds.1
    timeline_end := bounds.2
    jira_url := rstripSlash cfg.jiraUrl
    initiative_deps := (hierarchyPhase client link_types raws).1
    epic_deps := collectEpicDeps (hierarchyPhase client link_types raws).2.2
      (epicDataOf client link_types raws)
    project_names := client.projectNames (sortStrings (collectProjectKeys inits)) }

/-- `fetch_roadmap` (roadmap.py lines 66-370) past the configuration stage:
the primary search failure modes map to the named errors, an empty primary
result aborts, every auxiliary failure degrades to an empty response, and
the roadmap data is assembled from the pipeline phases above. `today` makes
the `date.today()` read explicit. Caveat on the final packaging step: the
`.ok` value carries the eight keywords of the construction site (roadmap.py
lines 361-370), but the `RoadmapResult` dataclass of models.py declares
only five of them (see `roadmapResultModelFields` and
`fetchRoadmapResultKwargs`), so on this path the Python call in fact raises
`TypeError` at the construction instead of returning — the defect settled
under C1 and C2; the `.ok` payload is the data the pipeline computes up to
that point, which the remaining claims are about. -/
def fetchRoadmap (cfg : Config) (client : JiraClientResponses) (today : Date)
    (jql : String) (link_types : Option (List String)) :
    Except RoadmapError RoadmapResult :=
  match client.searchInitiatives with
  | .error .authenticationError =>
    .error (.jiraAuthError "JIRA authentication failed. Check your credentials in ~/.jira-roadmap/config.toml.")
  | .error .rateLimitError =>
    .error (.jiraRateLimitError "JIRA rate limit exceeded. Please wait a moment and try again.")
  | .error (.connectionError msg) => .error (.jiraConnectionError msg)
  | .error (.valueError msg) =>
    .error (.invalidJqlError ("Invalid JQL query: " ++ msg ++ ". Check your query syntax."))
  | .ok raw_initiatives =>
    if raw_initiatives.isEmpty then
      .error (.noIssuesFoundError "No issues found matching your query.")
    else
      .ok (assembleRoadmap cfg client today jql link_types raw_initiatives)

/-- The field names the `RoadmapResult` dataclass declares (models.py lines
38-47); the generated constructor accepts exactly these keywords. -/
def roadmapResultModelFields : List String :=
  ["initiatives", "jql_query", "timeline_start", "timeline_end", "jira_url"]

/-- The keyword arguments `fetch_roadmap` passes to `RoadmapResult` at its
construction site (roadmap.py lines 361-370). -/
def fetchRoadmapResultKwargs : List String :=
  ["initiatives", "jql_query", "timeline_start", "timeline_end", "jira_url",
   "initiative_deps", "epic_deps", "project_names"]

/-- The attributes of the result record `roadmap_result_to_dict` reads
(roadmap.py lines 394-416). -/
def roadmapResultToDictReadFields : List String :=
  ["initiatives", "jql_query", "timeline_start", "timeline_end", "jira_url",
   "initiative_deps", "epic_deps", "project_names"]

/-- The name of the error a `fetch_roadmap` outcome carries, "ok" for a
returned roadmap: the observable "distinct named condition per cause". -/
def resultErrorName : Except RoadmapError RoadmapResult → String
  | .ok _ => "ok"
  | .error (.jiraAuthError _) => "JiraAuthError"
  | .error (.jiraRateLimitError _) => "JiraRateLimitError"
  | .error (.jiraConnectionError _) => "JiraConnectionError"
  | .error (.invalidJqlError _) => "InvalidJqlError"
  | .error (.noIssuesFoundError _) => "NoIssuesFoundError"

/-- The name of the error a primary-search response carries, "ok" for a
returned issue list. -/
def searchErrorName : Except JiraClientError (List RawIssue) → String
  | .ok _ => "ok"
  | .error .authenticationError => "AuthenticationError"
  | .error .rateLimitError => "RateLimitError"
  | .error (.connectionError _) => "ConnectionError"
  | .error (.valueError _) => "ValueError"

/-- The epic keys one initiative's issue-link channel contributes, in order
(roadmap.py lines 160-174 in isolation), starting from an accumulator. -/
def linkEpicsOf (skipLink : String → Bool) (links : List Link) (es : List String) :
    List String :=
  links.foldl
    (fun es link =>
      if skipLink link.typeName then es
      else es ++ (epicTargetsOfDir link.inwardIssue ++ epicTargetsOfDir link.outwardIssue)) es

/-- The invariant of a dependency-edge list: no duplicate ordered pairs and
no self-referencing pairs. -/
def depInv (deps : List (String × String)) : Prop :=
  deps.Nodup ∧ ∀ p ∈ deps, p.1 ≠ p.2

/-- Every per-initiative epic list of the `initiative_epic_links` dict is
duplicate-free. -/
def dictValuesNodup (l : List (String × List String)) : Prop :=
  ∀ pr ∈ l, pr.2.Nodup

/-! ### Concrete inputs used by witnesses and counterexamples -/

/-- A concrete validated configuration. -/
def cfgW : Config :=
  { startDateField := "cf_10015", endDateField := "cf_10016",
    jiraUrl := "https://jira.example.com/" }

/-- A concrete computation date. -/
def dW : Date := ⟨2025, 10, 12⟩

/-- A concrete "To Do" status field. -/
def statusNewW : StatusField :=
  { name := "To Do", statusCategory := { key := "new", name := "To Do" } }

/-- A concrete "In Progress" status field. -/
def statusInProgressW : StatusField :=
  { name := "In Progress", statusCategory := { key := "indeterminate", name := "In Progress" } }

/-- A concrete "Done" status field. -/
def statusDoneW : StatusField :=
  { name := "Done", statusCategory := { key := "done", name := "Done" } }

/-- A concrete raw epic record with optional start and end date values. -/
def epicRawW (k : String) (s e : Option String) : RawIssue :=
  { key := k, summary := "Epic " ++ k, status := statusNewW,
    dateFields := [("cf_10015", s), ("cf_10016", e)] }

/-- A concrete "Relates" link whose outward target is an epic. -/
def relLinkW (k : String) : Link :=
  { typeName := "Relates", outwardIssue := some { key := k, issuetypeName := "Epic" } }

/-- A concrete raw initiative linked to EPIC-1 and EPIC-2. -/
def initRawW : RawIssue :=
  { key := "INIT-1", summary := "Initiative One", status := statusInProgressW,
    issuelinks := [relLinkW "EPIC-1", relLinkW "EPIC-2"] }

/-- A concrete raw initiative whose issue links name EPIC-1 twice. -/
def initRawDupW : RawIssue :=
  { key := "INIT-1", summary := "Initiative One", status := statusInProgressW,
    issuelinks := [relLinkW "EPIC-1", relLinkW "EPIC-1"] }

/-- A concrete child story of EPIC-1 in the done category. -/
def storyRawW : RawIssue :=
  { key := "STORY-1", summary := "Story", status := statusDoneW, parentKey := "EPIC-1" }

/-- A name resolver echoing each project key. -/
def echoProjectNamesW : List String → List (String × String) :=
  fun l => l.map (fun k => (k, k))

/-- Collaborator responses for a fully successful fetch: one initiative,
two dated epics, one done story. -/
def clientHappyW : JiraClientResponses :=
  { searchInitiatives := .ok [initRawW]
    searchParentChildEpics := .ok []
    searchEpicsByKey := .ok
      [ epicRawW "EPIC-1" (some "2026-01-01") (some "2026-03-31"),
        epicRawW "EPIC-2" (some "2026-02-15") (some "2026-06-30") ]
    searchStories := .ok [storyRawW]
    projectNames := echoProjectNamesW }

/-- Collaborator responses where EPIC-2 carries no dates at all. -/
def clientMixedW : JiraClientResponses :=
  { searchInitiatives := .ok [initRawW]
    searchParentChildEpics := .ok []
    searchEpicsByKey := .ok
      [ epicRawW "EPIC-1" (some "2026-01-01") (some "2026-03-31"),
        epicRawW "EPIC-2" none none ]
    searchStories := .ok []
    projectNames := echoProjectNamesW }

/-- Collaborator responses whose primary search returns no issues. -/
def clientNoIssuesW : JiraClientResponses :=
  { searchInitiatives := .ok []
    searchParentChildEpics := .ok []
    searchEpicsByKey := .ok []
    searchStories := .ok []
    projectNames := echoProjectNamesW }

/-- Collaborator responses whose issue links name the same epic twice. -/
def clientDupLinksW : JiraClientResponses :=
  { searchInitiatives := .ok [initRawDupW]
    searchParentChildEpics := .ok []
    searchEpicsByKey := .ok [epicRawW "EPIC-1" (some "2026-01-01") (some "2026-03-31")]
    searchStories := .ok []
    projectNames := echoProjectNamesW }

/-- Collaborator responses where the primary search succeeds but the bulk
epic fetch fails: the failing input for the error-handling bug — the
pipeline computes a degraded initiative, then the construction site raises. -/
def clientBulkFailW : JiraClientResponses :=
  { searchInitiatives := .ok [initRawW]
    searchParentChildEpics := .ok []
    searchEpicsByKey := .error (.connectionError "connection lost")
    searchStories := .ok []
    projectNames := echoProjectNamesW }

/-- Two initiatives where INIT-A outward-links to INIT-B and INIT-B carries
the mirrored inward link back to INIT-A. -/
def initRawAW : RawIssue :=
  { key := "INIT-A", summary := "A", status := statusNewW,
    issuelinks :=
      [{ typeName := "Blocks",
         outwardIssue := some { key := "INIT-B", issuetypeName := "Initiative" } }] }

/-- The mirror side of the INIT-A → INIT-B link. -/
def initRawBW : RawIssue :=
  { key := "INIT-B", summary := "B", status := statusNewW,
    issuelinks :=
      [{ typeName := "Blocks",
         inwardIssue := some { key := "INIT-A", issuetypeName := "Initiative" } }] }

/-- Collaborator responses for the mirrored-link dependency scenario. -/
def clientABW : JiraClientResponses :=
  { searchInitiatives := .ok [initRawAW, initRawBW]
    searchParentChildEpics := .ok []
    searchEpicsByKey := .ok []
    searchStories := .ok []
    projectNames := echoProjectNamesW }

/-- Placeholder epic used only to make list indexing total. -/
def dummyEpicW : RoadmapEpic :=
  { key := "", title := "", status := "", status_category := "",
    start_date := none, end_date := none, url := "" }

/-- Placeholder initiative used only to make list indexing total. -/
def dummyInitW : RoadmapInitiative :=
  { key := "", title := "", status := "", status_category := "",
    start_date := none, end_date := none, epics := [], url := "" }

/-- Placeholder result used only to make result extraction total. -/
def dummyResultW : RoadmapResult :=
  { initiatives := [], jql_query := "", timeline_start := ⟨0, 0, 0⟩,
    timeline_end := ⟨0, 0, 0⟩, jira_url := "", initiative_deps := [],
    epic_deps := [], project_names := [] }

/-- Extraction of the roadmap from a fetch outcome known to be successful. -/
def extractOk (e : Except RoadmapError RoadmapResult) : RoadmapResult :=
  match e with
  | .ok r => r
  | .error _ => dummyResultW

/-- The concrete roadmap of the fully successful fetch. -/
def resHappyW : RoadmapResult := extractOk (fetchRoadmap cfgW clientHappyW dW "roadmap query" none)

/-- The concrete roadmap of the fetch with an undated epic. -/
def resMixedW : RoadmapResult := extractOk (fetchRoadmap cfgW clientMixedW dW "roadmap query" none)

/-- The concrete roadmap of the mirrored-link scenario. -/
def resABW : RoadmapResult := extractOk (fetchRoadmap cfgW clientABW dW "roadmap query" none)

/-! ### Basic order and container lemmas -/

theorem Date.le_refl (a : Date) : Date.le a a := by
  unfold Date.le; omega

theorem Date.le_trans {a b c : Date} (h1 : Date.le a b) (h2 : Date.le b c) : Date.le a c := by
  unfold Date.le at *; omega

theorem Date.lt_le {a b : Date} (h : Date.lt a b) : Date.le a b := by
  unfold Date.lt at h; unfold Date.le; omega

theorem Date.not_lt_le {a b : Date} (h : ¬ Date.lt a b) : Date.le b a := by
  unfold Date.lt at h; unfold Date.le; omega

theorem foldl_inv {α β : Type} {P : β → Prop} (f : β → α → β)
    (hf : ∀ b a, P b → P (f b a)) :
    ∀ (l : List α) (b : β), P b → P (l.foldl f b) := by
  intro l
  induction l with
  | nil => intro b hb; exact hb
  | cons a t ih => intro b hb; exact ih _ (hf _ _ hb)

theorem foldl_inv_mem {α β : Type} {P : β → Prop} (f : β → α → β) :
    ∀ (l : List α), (∀ b a, a ∈ l → P b → P (f b a)) → ∀ (b : β), P b → P (l.foldl f b) := by
  intro l
  induction l with
  | nil => intro _ b hb; exact hb
  | cons a t ih =>
    intro hf b hb
    exact ih (fun b x hx => hf b x (List.mem_cons_of_mem _ hx)) _
      (hf b a (List.mem_cons_self _ _) hb)

theorem fbLookup_mem {α : Type} {k : String} {v : α} :
    ∀ {l : List (String × α)}, fbLookup l k = some v → (k, v) ∈ l := by
  intro l
  induction l with
  | nil => intro h; simp [fbLookup] at h
  | cons p t ih =>
    obtain ⟨k', v'⟩ := p
    intro h
    simp only [fbLookup] at h
    split at h
    · rename_i heq; injection h with h; subst heq; subst h; exact List.mem_cons_self _ _
    · exact List.mem_cons_of_mem _ (ih h)

theorem dictSet_mem {α : Type} {k : String} {v : α} {pr : String × α} :
    ∀ {l : List (String × α)}, pr ∈ dictSet l k v → pr ∈ l ∨ pr = (k, v) := by
  intro l
  induction l with
  | nil => intro h; simp [dictSet] at h; right; exact h
  | cons p t ih =>
    obtain ⟨k', v'⟩ := p
    intro h
    simp only [dictSet] at h
    split at h
    · rename_i heq
      rcases List.mem_cons.mp h with h | h
      · right; rw [h, heq]
      · left; exact List.mem_cons_of_mem _ h
    · rcases List.mem_cons.mp h with h | h
      · left; rw [h]; exact List.mem_cons_self _ _
      · rcases ih h with h | h
        · left; exact List.mem_cons_of_mem _ h
        · right; exact h

theorem fbLookup_dictSet_self {α : Type} (k : String) (v : α) :
    ∀ (l : List (String × α)), fbLookup (dictSet l k v) k = some v := by
  intro l
  induction l with
  | nil => simp [dictSet, fbLookup]
  | cons p t ih =>
    obtain ⟨k', v'⟩ := p
    simp only [dictSet]
    split
    · rename_i heq; simp [fbLookup, heq]
    · rename_i hne; simp [fbLookup, hne, ih]

theorem nodup_append_singleton {α : Type} {l : List α} {x : α}
    (h : l.Nodup) (hx : x ∉ l) : (l ++ [x]).Nodup := by
  rw [List.nodup_append]
  refine ⟨h, List.nodup_singleton x, ?_⟩
  intro a ha hax
  rw [List.mem_singleton] at hax
  exact hx (hax ▸ ha)

/-! ### C7 — status categorizer -/

theorem get_status_category_mem (s : StatusField) :
    get_status_category s = "new" ∨ get_status_category s = "indeterminate" ∨
    get_status_category s = "done" ∨ get_status_category s = "cancelled" := by
  simp only [get_status_category]
  split_ifs with h1 h2 h3 h4 <;> tauto

/-- C7: the status categorizer is a total pure function into
{new, indeterminate, done, cancelled}, applying its rules in order with
first match winning: a name containing "cancel" (case-insensitively) gives
"cancelled" before the category is consulted; else an exact lower-cased
category key of new/indeterminate/done is returned; else a category name
containing "done" gives "done", one containing "progress" or
"indeterminate" gives "indeterminate"; everything else, including the
all-fields-missing record, gives "new". -/
theorem get_status_category_spec :
    (∀ s : StatusField,
        get_status_category s = "new" ∨ get_status_category s = "indeterminate" ∨
        get_status_category s = "done" ∨ get_status_category s = "cancelled")
  ∧ (∀ s : StatusField, strContainsSub (strLower s.name) "cancel" = true →
        get_status_category s = "cancelled")
  ∧ (∀ s : StatusField, strContainsSub (strLower s.name) "cancel" = false →
        strLower s.statusCategory.key = "new" ∨ strLower s.statusCategory.key = "indeterminate" ∨
          strLower s.statusCategory.key = "done" →
        get_status_category s = strLower s.statusCategory.key)
  ∧ (∀ s : StatusField, strContainsSub (strLower s.name) "cancel" = false →
        ¬(strLower s.statusCategory.key = "new" ∨ strLower s.statusCategory.key = "indeterminate" ∨
          strLower s.statusCategory.key = "done") →
        strContainsSub (strLower s.statusCategory.name) "done" = true →
        get_status_category s = "done")
  ∧ (∀ s : StatusField, strContainsSub (strLower s.name) "cancel" = false →
        ¬(strLower s.statusCategory.key = "new" ∨ strLower s.statusCategory.key = "indeterminate" ∨
          strLower s.statusCategory.key = "done") →
        strContainsSub (strLower s.statusCategory.name) "done" = false →
        (strContainsSub (strLower s.statusCategory.name) "progress" = true ∨
          strContainsSub (strLower s.statusCategory.name) "indeterminate" = true) →
        get_status_category s = "indeterminate")
  ∧ (∀ s : StatusField, strContainsSub (strLower s.name) "cancel" = false →
        ¬(strLower s.statusCategory.key = "new" ∨ strLower s.statusCategory.key = "indeterminate" ∨
          strLower s.statusCategory.key = "done") →
        strContainsSub (strLower s.statusCategory.name) "done" = false →
        strContainsSub (strLower s.statusCategory.name) "progress" = false →
        strContainsSub (strLower s.statusCategory.name) "indeterminate" = false →
        get_status_category s = "new")
  ∧ get_status_category {} = "new" := by
  refine ⟨get_status_category_mem, ?_, ?_, ?_, ?_, ?_, rfl⟩
  · intro s h; simp [get_status_category, h]
  · intro s h hk
    rcases hk with hk | hk | hk <;> simp [get_status_category, h, hk]
  · intro s h hk hd
    simp only [get_status_category]
    rw [if_neg (by simp [h]), if_neg hk, if_pos hd]
  · intro s h hk hd hp
    simp only [get_status_category]
    rw [if_neg (by simp [h]), if_neg hk, if_neg (by simp [hd]), if_pos hp]
  · intro s h hk hd hp hi
    simp only [get_status_category]
    rw [if_neg (by simp [h]), if_neg hk, if_neg (by simp [hd]),
      if_neg (by simp [hp, hi])]

/-- Witness for C7 at a concrete record: the "cancel" rule fires even when
the category key says "done". -/
theorem get_status_category_spec_witness :
    get_status_category
      { name := "Cancelled", statusCategory := { key := "done", name := "Done" } }
      = "cancelled" :=
  get_status_category_spec.2.1
    { name := "Cancelled", statusCategory := { key := "done", name := "Done" } }
    (by decide)

/-! ### C8 — date resolver -/

theorem parseIsoList_length {l : List Char} {d : Date}
    (h : parseIsoList l = some d) : l.length = 10 := by
  unfold parseIsoList at h
  split at h
  · rfl
  · exact absurd h (by simp)

theorem strTake10_append (s t : String) (hlen : s.data.length = 10) :
    strTake10 (s ++ t) = s := by
  obtain ⟨l⟩ := s
  obtain ⟨l2⟩ := t
  have hlen' : l.length = 10 := hlen
  show String.mk ((l ++ l2).take 10) = String.mk l
  have ht : (l ++ l2).take 10 = l := by rw [← hlen']; exact List.take_left l l2
  rw [ht]

theorem append_ne_empty_of_len10 (s t : String) (hlen : s.data.length = 10) :
    ¬ (s ++ t) = "" := by
  intro h
  have hd : (s ++ t).data = [] := by rw [h]
  rw [String.data_append] at hd
  have := congrArg List.length hd
  simp [hlen] at this

/-- C8: the date resolver never errors: absent, null and empty values
resolve to unknown; a value whose first 10 characters parse as a strict
ISO calendar date (in particular any well-formed `YYYY-MM-DD` string,
bare or with a timestamp suffix) resolves to that date; any parse failure
resolves to unknown, e.g. the 10-character string "not-a-date". -/
theorem parse_date_field_spec :
    (∀ (fields : FieldBag) (fid : String), fieldValue fields fid = none →
        parse_date_field fields fid = none)
  ∧ (∀ (fields : FieldBag) (fid : String), fieldValue fields fid = some "" →
        parse_date_field fields fid = none)
  ∧ (∀ (fields : FieldBag) (fid : String) (s t : String) (d : Date),
        parseIso s = some d → fieldValue fields fid = some (s ++ t) →
        parse_date_field fields fid = some d)
  ∧ (∀ (fields : FieldBag) (fid : String) (v : String), fieldValue fields fid = some v →
        parseIso (strTake10 v) = none → parse_date_field fields fid = none)
  ∧ parse_date_field [("f", some "not-a-date")] "f" = none := by
  refine ⟨?_, ?_, ?_, ?_, by decide⟩
  · intro fields fid h; simp [parse_date_field, h]
  · intro fields fid h; simp [parse_date_field, h]
  · intro fields fid s t d hp hv
    have hlen : s.data.length = 10 := parseIsoList_length (l := s.data) hp
    simp only [parse_date_field, hv]
    rw [if_neg (append_ne_empty_of_len10 s t hlen), strTake10_append s t hlen]
    exact hp
  · intro fields fid v hv hp
    simp only [parse_date_field, hv]
    split_ifs with h
    · rfl
    · exact hp

/-- Witness for C8 at a concrete field bag: a timestamp-suffixed value
resolves to the date of its first ten characters. -/
theorem parse_date_field_spec_witness :
    parse_date_field [("cf_10015", some ("2026-03-15" ++ "T10:30:00.000+0000"))] "cf_10015"
      = some ⟨2026, 3, 15⟩ :=
  parse_date_field_spec.2.2.1 [("cf_10015", some ("2026-03-15" ++ "T10:30:00.000+0000"))]
    "cf_10015" "2026-03-15" "T10:30:00.000+0000" ⟨2026, 3, 15⟩ (by decide) rfl

/-! ### C1 — result field mismatch between the construction site and the model -/

/-- C1: the construction site of the result in `fetch_roadmap` passes the
keywords `initiative_deps`, `epic_deps` and `project_names`, and the
serializer reads the same attributes, but none of them is declared by the
`RoadmapResult` dataclass, whose generated constructor accepts only its
declared fields — so the call raises `TypeError` instead of returning the
described result. -/
theorem fetch_roadmap_result_fields_mismatch :
    ("initiative_deps" ∈ fetchRoadmapResultKwargs ∧
      "initiative_deps" ∉ roadmapResultModelFields)
  ∧ ("epic_deps" ∈ fetchRoadmapResultKwargs ∧ "epic_deps" ∉ roadmapResultModelFields)
  ∧ ("project_names" ∈ fetchRoadmapResultKwargs ∧
      "project_names" ∉ roadmapResultModelFields)
  ∧ ("initiative_deps" ∈ roadmapResultToDictReadFields ∧
      "epic_deps" ∈ roadmapResultToDictReadFields ∧
      "project_names" ∈ roadmapResultToDictReadFields) := by
  decide

/-! ### C10 — empty allow-list behaves as no allow-list -/

/-- C10: with a fixed configuration, collaborator responses, clock and
query, `fetch_roadmap` called with an empty link-type list returns exactly
what it returns with no link-type list: the filter guard is inert for both. -/
theorem fetchRoadmap_empty_allowlist_eq_none :
    ∀ (cfg : Config) (client : JiraClientResponses) (today : Date) (jql : String),
      fetchRoadmap cfg client today jql (some []) = fetchRoadmap cfg client today jql none := by
  have hskip : linkTypeSkips (some []) = linkTypeSkips none := by
    funext name; simp [linkTypeSkips]
  have hbuild : buildInitiativeLinks (some []) = buildInitiativeLinks none := by
    funext raws; simp [buildInitiativeLinks, hskip]
  intro cfg client today jql
  obtain ⟨prim, pce, ebk, sts, pn⟩ := client
  cases prim with
  | error e => cases e <;> rfl
  | ok raws =>
    simp [fetchRoadmap, assembleRoadmap, initiativesOf, hierarchyPhase,
      epicDataOf, storyCountsOf, hbuild]

/-! ### Shape of successful fetches -/

theorem assembleRoadmap_initiatives (cfg : Config) (client : JiraClientResponses)
    (today : Date) (jql : String) (lt : Option (List String)) (raws : List RawIssue) :
    (assembleRoadmap cfg client today jql lt raws).initiatives = initiativesOf cfg client lt raws := rfl

theorem assembleRoadmap_initiative_deps (cfg : Config) (client : JiraClientResponses)
    (today : Date) (jql : String) (lt : Option (List String)) (raws : List RawIssue) :
    (assembleRoadmap cfg client today jql lt raws).initiative_deps =
      (hierarchyPhase client lt raws).1 := rfl

theorem assembleRoadmap_epic_deps (cfg : Config) (client : JiraClientResponses)
    (today : Date) (jql : String) (lt : Option (List String)) (raws : List RawIssue) :
    (assembleRoadmap cfg client today jql lt raws).epic_deps =
      collectEpicDeps (hierarchyPhase client lt raws).2.2 (epicDataOf client lt raws) := rfl

theorem assembleRoadmap_bounds (cfg : Config) (client : JiraClientResponses)
    (today : Date) (jql : String) (lt : Option (List String)) (raws : List RawIssue) :
    (assembleRoadmap cfg client today jql lt raws).timeline_start =
      (computeTimeline today
        (((initiativesOf cfg client lt raws).map initiativeDates).flatten)).1 ∧
    (assembleRoadmap cfg client today jql lt raws).timeline_end =
      (computeTimeline today
        (((initiativesOf cfg client lt raws).map initiativeDates).flatten)).2 :=
  ⟨rfl, rfl⟩

theorem fetchRoadmap_ok_shape {cfg : Config} {client : JiraClientResponses} {today : Date}
    {jql : String} {lt : Option (List String)} {r : RoadmapResult}
    (h : fetchRoadmap cfg client today jql lt = .ok r) :
    ∃ raws, client.searchInitiatives = .ok raws ∧ raws.isEmpty = false ∧
      r = assembleRoadmap cfg client today jql lt raws := by
  obtain ⟨prim, pce, ebk, sts, pn⟩ := client
  cases prim with
  | error e => cases e <;> simp [fetchRoadmap] at h
  | ok raws =>
    cases hE : raws.isEmpty with
    | true => simp [fetchRoadmap, hE] at h
    | false =>
      simp [fetchRoadmap, hE] at h
      exact ⟨raws, rfl, hE, h.symm⟩

theorem guardedAux_error (keys : List String) (e : JiraClientError) :
    guardedAux keys (.error e) = [] := by
  unfold guardedAux auxResult
  split <;> rfl

theorem epicsOfInitiative_mem {cfg : Config} {u : String}
    {sc : List (String × StoryCounts)} {ed : List (String × RawIssue)}
    {ks : List String} {e : RoadmapEpic}
    (h : e ∈ epicsOfInitiative cfg u sc ed ks) :
    ∃ k raw, fbLookup ed k = some raw ∧ e = buildEpic cfg u sc k raw := by
  unfold epicsOfInitiative at h
  refine foldl_inv
    (P := fun es => ∀ x ∈ es, ∃ k raw, fbLookup ed k = some raw ∧ x = buildEpic cfg u sc k raw)
    _ ?_ ks [] (by simp) e h
  intro es k hes
  simp only [epicsStep]
  cases hfk : fbLookup ed k with
  | none => exact hes
  | some raw =>
    intro x hx
    have hx' : x ∈ es ++ [buildEpic cfg u sc k raw] := hx
    rcases List.mem_append.mp hx' with hm | hm
    · exact hes x hm
    · rw [List.mem_singleton] at hm
      exact ⟨k, raw, hfk, hm⟩

theorem buildInitiative_data_nil (cfg : Config) (u : String)
    (links : List (String × List String)) (sc : List (String × StoryCounts))
    (issue : RawIssue) :
    (buildInitiative cfg u links [] sc issue).epics = [] ∧
    (buildInitiative cfg u links [] sc issue).start_date = none ∧
    (buildInitiative cfg u links [] sc issue).end_date = none := by
  have hep : epicsOfInitiative cfg u sc [] ((fbLookup links issue.key).getD []) = [] := by
    rw [List.eq_nil_iff_forall_not_mem]
    intro e he
    obtain ⟨k, raw, hk, _⟩ := epicsOfInitiative_mem he
    simp [fbLookup] at hk
  refine ⟨?_, ?_, ?_⟩ <;> simp [buildInitiative, hep]

/-! ### C2 — fatal versus degraded error handling -/

/-- C2 (code bug, evaluated at the failing input): the fatal tier of the
claim is implemented correctly — a distinct named error is raised exactly
when the primary initiative search fails with the corresponding
collaborator error, and `NoIssuesFoundError` exactly when it returns an
empty list (first conjunct, faithful to roadmap.py lines 111-128, which
raise before the defective construction is reached). The degraded tier is
not: with the bulk epic fetch failing, the pipeline does compute the
degraded data the claim describes — the affected initiative with a
zero-length epic list and unknown start and end dates (second conjunct) —
but the `RoadmapResult` construction that would return it passes keywords
the dataclass does not declare (third conjunct), so the Python call raises
`TypeError` at roadmap.py line 361 instead of returning a roadmap. -/
theorem fetchRoadmap_error_handling_bug :
    (∀ (cfg : Config) (client : JiraClientResponses) (today : Date) (jql : String)
        (lt : Option (List String)),
      (resultErrorName (fetchRoadmap cfg client today jql lt) = "JiraAuthError" ↔
        searchErrorName client.searchInitiatives = "AuthenticationError")
      ∧ (resultErrorName (fetchRoadmap cfg client today jql lt) = "JiraRateLimitError" ↔
          searchErrorName client.searchInitiatives = "RateLimitError")
      ∧ (resultErrorName (fetchRoadmap cfg client today jql lt) = "JiraConnectionError" ↔
          searchErrorName client.searchInitiatives = "ConnectionError")
      ∧ (resultErrorName (fetchRoadmap cfg client today jql lt) = "InvalidJqlError" ↔
          searchErrorName client.searchInitiatives = "ValueError")
      ∧ (resultErrorName (fetchRoadmap cfg client today jql lt) = "NoIssuesFoundError" ↔
          client.searchInitiatives = .ok []))
  ∧ Except.map (fun r => r.initiatives.map (fun i => (i.epics, i.start_date, i.end_date)))
      (fetchRoadmap cfgW clientBulkFailW dW "roadmap query" none)
      = .ok [([], none, none)]
  ∧ fetchRoadmapResultKwargs.all (fun k => k ∈ roadmapResultModelFields) = false := by
  refine ⟨?_, rfl, by decide⟩
  intro cfg client today jql lt
  refine ⟨?_, ?_, ?_, ?_, ?_⟩ <;>
    (cases hp : client.searchInitiatives with
     | error e => cases e <;> simp [fetchRoadmap, hp, resultErrorName, searchErrorName]
     | ok raws => cases raws <;> simp [fetchRoadmap, hp, resultErrorName, searchErrorName])

/-! ### C5 — dependency-edge invariants -/

theorem outwardDepStep_inv (keys : List String) (src : String) (link : Link)
    {deps : List (String × String)} (h : depInv deps) :
    depInv (outwardDepStep keys src deps link) := by
  unfold outwardDepStep
  cases link.outwardIssue with
  | none => exact h
  | some o =>
    show depInv
      (if o.key ≠ "" ∧ o.key ∈ keys ∧ o.key ≠ src then
        if (src, o.key) ∈ deps then deps else deps ++ [(src, o.key)]
      else deps)
    split_ifs with h1 h2
    · exact h
    · constructor
      · exact nodup_append_singleton h.1 h2
      · intro p hp
        rcases List.mem_append.mp hp with hp | hp
        · exact h.2 p hp
        · rw [List.mem_singleton] at hp
          subst hp
          exact Ne.symm h1.2.2
    · exact h

theorem linkStep_inv (ik : List String) (skip : String → Bool) (key : String)
    (st : List (String × String) × List String × List String) (link : Link)
    (h : depInv st.1) : depInv (linkStep ik skip key st link).1 := by
  simp only [linkStep]
  split
  · exact outwardDepStep_inv ik key link h
  · exact outwardDepStep_inv ik key link h

theorem issueStep_inv (ik : List String) (skip : String → Bool)
    (acc : List (String × String) × List (String × List String) × List String)
    (issue : RawIssue) (h : depInv acc.1) : depInv (issueStep ik skip acc issue).1 := by
  simp only [issueStep]
  exact foldl_inv (P := fun st => depInv st.1) _
    (fun b a hb => linkStep_inv ik skip issue.key b a hb) issue.issuelinks
    (acc.1, [], acc.2.2) h

theorem buildInitiativeLinks_depInv (lt : Option (List String)) (raws : List RawIssue) :
    depInv (buildInitiativeLinks lt raws).1 := by
  unfold buildInitiativeLinks
  exact foldl_inv (P := fun acc => depInv acc.1) _
    (fun b a hb => issueStep_inv _ _ b a hb) raws ([], [], [])
    ⟨List.nodup_nil, by simp⟩

theorem collectEpicDeps_depInv (keys : List String) (ed : List (String × RawIssue)) :
    depInv (collectEpicDeps keys ed) := by
  unfold collectEpicDeps
  refine foldl_inv (P := depInv) _ ?_ ed [] ⟨List.nodup_nil, by simp⟩
  intro deps entry h
  exact foldl_inv (P := depInv) _
    (fun b a hb => outwardDepStep_inv keys entry.1 a hb) entry.2.issuelinks deps h

/-- C5: both dependency-edge lists of any returned roadmap contain no
duplicate ordered pairs and no self-referencing pairs; edges come from
outward links only — in the concrete mirrored-link scenario where INIT-A
outward-links to INIT-B and INIT-B inward-links back to INIT-A, exactly the
single edge (INIT-A, INIT-B) is produced. -/
theorem fetchRoadmap_dependency_edges_spec :
    (∀ (cfg : Config) (client : JiraClientResponses) (today : Date) (jql : String)
        (lt : Option (List String)) (r : RoadmapResult),
        fetchRoadmap cfg client today jql lt = .ok r →
        r.initiative_deps.Nodup ∧ (∀ p ∈ r.initiative_deps, p.1 ≠ p.2) ∧
        r.epic_deps.Nodup ∧ (∀ p ∈ r.epic_deps, p.1 ≠ p.2))
  ∧ Except.map (fun r => r.initiative_deps)
      (fetchRoadmap cfgW clientABW dW "roadmap query" none)
      = .ok [("INIT-A", "INIT-B")] := by
  constructor
  · intro cfg client today jql lt r h
    obtain ⟨raws, hprim, hne, hr⟩ := fetchRoadmap_ok_shape h
    subst hr
    rw [assembleRoadmap_initiative_deps, assembleRoadmap_epic_deps]
    have h1 : depInv (hierarchyPhase client lt raws).1 := buildInitiativeLinks_depInv lt raws
    have h2 := collectEpicDeps_depInv (hierarchyPhase client lt raws).2.2
      (epicDataOf client lt raws)
    exact ⟨h1.1, h1.2, h2.1, h2.2⟩
  · rfl

/-- Witness for C5 at the concrete mirrored-link scenario. -/
theorem fetchRoadmap_dependency_edges_spec_witness :
    resABW.initiative_deps.Nodup :=
  (fetchRoadmap_dependency_edges_spec.1 cfgW clientABW dW "roadmap query" none resABW rfl).1

/-! ### C3 — per-initiative epic-list deduplication -/

/-- C3 counterexample: an initiative whose issue links name EPIC-1 twice
(two "Relates" links, both outward to the same epic) ends up with the key
twice in its built epic list — the issue-link channel does not deduplicate. -/
theorem epic_list_duplicate_via_links_counterexample :
    Except.map (fun r => r.initiatives.map (fun i => i.epics.map RoadmapEpic.key))
      (fetchRoadmap cfgW clientDupLinksW dW "roadmap query" none)
      = .ok [["EPIC-1", "EPIC-1"]] := rfl

theorem linkStep_epics (ik : List String) (skip : String → Bool) (key : String)
    (st : List (String × String) × List String × List String) (link : Link) :
    (linkStep ik skip key st link).2.1 =
      if skip link.typeName then st.2.1
      else st.2.1 ++ (epicTargetsOfDir link.inwardIssue ++ epicTargetsOfDir link.outwardIssue) := by
  simp only [linkStep]
  split <;> rfl

theorem linkEpicsOf_cons (skip : String → Bool) (l : Link) (ls : List Link) (es : List String) :
    linkEpicsOf skip (l :: ls) es =
      linkEpicsOf skip ls
        (if skip l.typeName then es
         else es ++ (epicTargetsOfDir l.inwardIssue ++ epicTargetsOfDir l.outwardIssue)) := rfl

theorem linkFold_epics (ik : List String) (skip : String → Bool) (key : String) :
    ∀ (links : List Link) (st : List (String × String) × List String × List String),
      (links.foldl (linkStep ik skip key) st).2.1 = linkEpicsOf skip links st.2.1 := by
  intro links
  induction links with
  | nil => intro st; rfl
  | cons l ls ih =>
    intro st
    rw [List.foldl_cons, ih (linkStep ik skip key st l), linkEpicsOf_cons,
      linkStep_epics]

theorem subtaskFold_nodup (subs : List LinkedIssue) (st : List String × List String)
    (h : st.1.Nodup) : (subs.foldl subtaskStep st).1.Nodup := by
  refine foldl_inv (P := fun st => st.1.Nodup) _ ?_ subs st h
  intro b sub hb
  simp only [subtaskStep]
  split_ifs with hc
  · exact nodup_append_singleton hb hc.2.2
  · exact hb

theorem buildInitiativeLinks_valuesNodup (lt : Option (List String)) (raws : List RawIssue)
    (h : ∀ issue ∈ raws, (linkEpicsOf (linkTypeSkips lt) issue.issuelinks []).Nodup) :
    dictValuesNodup (buildInitiativeLinks lt raws).2.1 := by
  unfold buildInitiativeLinks
  refine foldl_inv_mem
    (P := fun acc : List (String × String) × List (String × List String) × List String =>
      dictValuesNodup acc.2.1) _ raws ?_ ([], [], []) ?_
  · intro acc issue hmem hacc
    simp only [issueStep]
    intro pr hpr
    rcases dictSet_mem hpr with hpr | hpr
    · exact hacc pr hpr
    · have hnl : ((issue.issuelinks.foldl
          (linkStep (raws.map (·.key)) (linkTypeSkips lt) issue.key)
          (acc.1, [], acc.2.2)).2.1).Nodup := by
        rw [linkFold_epics]
        exact h issue hmem
      have hsub := subtaskFold_nodup issue.subtasks _ hnl
      rw [hpr]
      exact hsub
  · intro pr hpr
    simp at hpr

theorem addParentChildEpics_valuesNodup (links : List (String × List String))
    (keys : List String) (children : List RawIssue) (h : dictValuesNodup links) :
    dictValuesNodup (addParentChildEpics links keys children).1 := by
  unfold addParentChildEpics
  refine foldl_inv (P := fun st => dictValuesNodup st.1) _ ?_ children (links, keys) h
  intro st child hst
  simp only [parentChildStep]
  cases hl : fbLookup st.1 child.parentKey with
  | none => exact hst
  | some existing =>
    show dictValuesNodup
      (if child.key ∈ existing then st
       else (dictSet st.1 child.parentKey (existing ++ [child.key]), setAdd st.2 child.key)).1
    split_ifs with hc
    · exact hst
    · intro pr hpr
      have hpr' : pr ∈ dictSet st.1 child.parentKey (existing ++ [child.key]) := hpr
      rcases dictSet_mem hpr' with hm | hm
      · exact hst pr hm
      · rw [hm]
        exact nodup_append_singleton (hst _ (fbLookup_mem hl)) hc

theorem buildInitiative_epics (cfg : Config) (u : String)
    (links : List (String × List String)) (ed : List (String × RawIssue))
    (sc : List (String × StoryCounts)) (issue : RawIssue) :
    (buildInitiative cfg u links ed sc issue).epics =
      epicsOfInitiative cfg u sc ed ((fbLookup links issue.key).getD []) := rfl

theorem buildEpic_key (cfg : Config) (u : String) (sc : List (String × StoryCounts))
    (k : String) (raw : RawIssue) : (buildEpic cfg u sc k raw).key = k := rfl

theorem epicsOfInitiative_keys (cfg : Config) (u : String)
    (sc : List (String × StoryCounts)) (ed : List (String × RawIssue)) :
    ∀ (ks : List String) (es : List RoadmapEpic),
      ((ks.foldl (epicsStep cfg u sc ed) es).map RoadmapEpic.key)
        = es.map RoadmapEpic.key ++ ks.filter (fun k => (fbLookup ed k).isSome) := by
  intro ks
  induction ks with
  | nil => intro es; simp
  | cons k t ih =>
    intro es
    rw [List.foldl_cons]
    cases hfk : fbLookup ed k with
    | none =>
      rw [show epicsStep cfg u sc ed es k = es by simp [epicsStep, hfk]]
      rw [ih es, List.filter_cons]
      simp [hfk]
    | some raw =>
      rw [show epicsStep cfg u sc ed es k = es ++ [buildEpic cfg u sc k raw] by
        simp [epicsStep, hfk]]
      rw [ih (es ++ [buildEpic cfg u sc k raw]), List.filter_cons]
      simp [hfk, buildEpic_key]

theorem epicsOfInitiative_keys_filter (cfg : Config) (u : String)
    (sc : List (String × StoryCounts)) (ed : List (String × RawIssue)) (ks : List String) :
    (epicsOfInitiative cfg u sc ed ks).map RoadmapEpic.key
      = ks.filter (fun k => (fbLookup ed k).isSome) := by
  unfold epicsOfInitiative
  rw [epicsOfInitiative_keys]
  simp

/-- C3 amended: the subtask channel and the parent-field channel drop keys
already present (first occurrence wins), so whenever the keys each
initiative's issue-link channel contributes are pairwise distinct, every
initiative of the returned roadmap has a duplicate-free epic list; the
issue-link channel itself, however, appends one occurrence per qualifying
link without deduplication (see the counterexample). -/
theorem initiative_epic_nodup_amended :
    ∀ (cfg : Config) (client : JiraClientResponses) (today : Date) (jql : String)
      (lt : Option (List String)) (raws : List RawIssue) (r : RoadmapResult),
      client.searchInitiatives = .ok raws →
      fetchRoadmap cfg client today jql lt = .ok r →
      (∀ issue ∈ raws, (linkEpicsOf (linkTypeSkips lt) issue.issuelinks []).Nodup) →
      ∀ init ∈ r.initiatives, (init.epics.map RoadmapEpic.key).Nodup := by
  intro cfg client today jql lt raws r hprim hfetch hnd init hinit
  obtain ⟨raws', hprim', hne, hr⟩ := fetchRoadmap_ok_shape hfetch
  rw [hprim] at hprim'
  injection hprim' with hraws
  subst hraws
  subst hr
  rw [assembleRoadmap_initiatives] at hinit
  unfold initiativesOf at hinit
  obtain ⟨raw, hraw, hbuilt⟩ := List.mem_map.mp hinit
  rw [← hbuilt, buildInitiative_epics, epicsOfInitiative_keys_filter]
  have hdict : dictValuesNodup (hierarchyPhase client lt raws).2.1 := by
    exact addParentChildEpics_valuesNodup _ _ _
      (buildInitiativeLinks_valuesNodup lt raws hnd)
  have hkl : ((fbLookup (hierarchyPhase client lt raws).2.1 raw.key).getD []).Nodup := by
    cases hfl : fbLookup (hierarchyPhase client lt raws).2.1 raw.key with
    | none => simp
    | some v => simpa using hdict _ (fbLookup_mem hfl)
  exact List.Nodup.filter _ hkl

/-- Witness for the amended C3 at the fully successful concrete fetch. -/
theorem initiative_epic_nodup_amended_witness :
    (((resHappyW.initiatives.headD dummyInitW).epics.map RoadmapEpic.key)).Nodup :=
  initiative_epic_nodup_amended cfgW clientHappyW dW "roadmap query" none [initRawW]
    resHappyW rfl rfl (by decide) (resHappyW.initiatives.headD dummyInitW) (by decide)

/-! ### C4 — initiative date derivation -/

theorem dateFoldMin_spec : ∀ (ds : List Date) (d : Date),
    (ds.foldl (fun acc x => if Date.lt x acc then x else acc) d) ∈ d :: ds ∧
    ∀ x ∈ d :: ds,
      Date.le (ds.foldl (fun acc x => if Date.lt x acc then x else acc) d) x := by
  intro ds
  induction ds with
  | nil =>
    intro d
    refine ⟨List.mem_cons_self _ _, ?_⟩
    intro x hx
    rcases List.mem_cons.mp hx with hx | hx
    · subst hx; exact Date.le_refl _
    · simp at hx
  | cons y ys ih =>
    intro d
    rw [List.foldl_cons]
    obtain ⟨ihm, ihle⟩ := ih (if Date.lt y d then y else d)
    have hd' : Date.le (if Date.lt y d then y else d) d ∧
        Date.le (if Date.lt y d then y else d) y := by
      split_ifs with hlt
      · exact ⟨Date.lt_le hlt, Date.le_refl y⟩
      · exact ⟨Date.le_refl d, Date.not_lt_le hlt⟩
    have hfoldle := ihle _ (List.mem_cons_self _ _)
    constructor
    · rcases List.mem_cons.mp ihm with hm | hm
      · rw [hm]
        split_ifs <;> simp
      · exact List.mem_cons_of_mem _ (List.mem_cons_of_mem _ hm)
    · intro x hx
      rcases List.mem_cons.mp hx with hx | hx
      · subst hx; exact Date.le_trans hfoldle hd'.1
      rcases List.mem_cons.mp hx with hx | hx
      · subst hx; exact Date.le_trans hfoldle hd'.2
      · exact ihle x (List.mem_cons_of_mem _ hx)

theorem dateFoldMax_spec : ∀ (ds : List Date) (d : Date),
    (ds.foldl (fun acc x => if Date.lt acc x then x else acc) d) ∈ d :: ds ∧
    ∀ x ∈ d :: ds,
      Date.le x (ds.foldl (fun acc x => if Date.lt acc x then x else acc) d) := by
  intro ds
  induction ds with
  | nil =>
    intro d
    refine ⟨List.mem_cons_self _ _, ?_⟩
    intro x hx
    rcases List.mem_cons.mp hx with hx | hx
    · subst hx; exact Date.le_refl _
    · simp at hx
  | cons y ys ih =>
    intro d
    rw [List.foldl_cons]
    obtain ⟨ihm, ihle⟩ := ih (if Date.lt d y then y else d)
    have hd' : Date.le d (if Date.lt d y then y else d) ∧
        Date.le y (if Date.lt d y then y else d) := by
      split_ifs with hlt
      · exact ⟨Date.lt_le hlt, Date.le_refl y⟩
      · exact ⟨Date.le_refl d, Date.not_lt_le hlt⟩
    have hfoldle := ihle _ (List.mem_cons_self _ _)
    constructor
    · rcases List.mem_cons.mp ihm with hm | hm
      · rw [hm]
        split_ifs <;> simp
      · exact List.mem_cons_of_mem _ (List.mem_cons_of_mem _ hm)
    · intro x hx
      rcases List.mem_cons.mp hx with hx | hx
      · subst hx; exact Date.le_trans hd'.1 hfoldle
      rcases List.mem_cons.mp hx with hx | hx
      · subst hx; exact Date.le_trans hd'.2 hfoldle
      · exact ihle x (List.mem_cons_of_mem _ hx)

theorem dateListMin_spec {ds : List Date} (hne : ds ≠ []) :
    ∃ m, dateListMin ds = some m ∧ m ∈ ds ∧ ∀ x ∈ ds, Date.le m x := by
  cases ds with
  | nil => exact absurd rfl hne
  | cons b bs => exact ⟨_, rfl, (dateFoldMin_spec bs b).1, (dateFoldMin_spec bs b).2⟩

theorem dateListMax_spec {ds : List Date} (hne : ds ≠ []) :
    ∃ m, dateListMax ds = some m ∧ m ∈ ds ∧ ∀ x ∈ ds, Date.le x m := by
  cases ds with
  | nil => exact absurd rfl hne
  | cons b bs => exact ⟨_, rfl, (dateFoldMax_spec bs b).1, (dateFoldMax_spec bs b).2⟩

theorem filterMap_all_isSome_ne_nil {α β : Type} (f : α → Option β) :
    ∀ (l : List α), l ≠ [] → (∀ x ∈ l, (f x).isSome = true) → l.filterMap f ≠ [] := by
  intro l hne hall
  cases l with
  | nil => exact absurd rfl hne
  | cons a t =>
    have ha := hall a (List.mem_cons_self _ _)
    cases hfa : f a with
    | none => rw [hfa] at ha; simp at ha
    | some b => simp [List.filterMap_cons, hfa]

theorem dateRule_min (f : RoadmapEpic → Option Date) (epics : List RoadmapEpic) :
    ((epics ≠ [] ∧ ∀ e ∈ epics, (f e).isSome = true) →
      ∃ d, (if !epics.isEmpty && epics.all (fun e => (f e).isSome)
            then some ((dateListMin (epics.filterMap f)).getD ⟨0, 0, 0⟩) else none) = some d ∧
        d ∈ epics.filterMap f ∧ ∀ x ∈ epics.filterMap f, Date.le d x)
  ∧ ((∃ e ∈ epics, f e = none) →
      (if !epics.isEmpty && epics.all (fun e => (f e).isSome)
       then some ((dateListMin (epics.filterMap f)).getD ⟨0, 0, 0⟩) else none) = none) := by
  constructor
  · rintro ⟨hne, hall⟩
    have hguard : (!epics.isEmpty && epics.all (fun e => (f e).isSome)) = true := by
      cases epics with
      | nil => exact absurd rfl hne
      | cons a t =>
        simp only [List.isEmpty_cons, Bool.not_false, Bool.true_and]
        exact List.all_eq_true.mpr hall
    rw [if_pos hguard]
    obtain ⟨m, hm, hmem, hle⟩ := dateListMin_spec (filterMap_all_isSome_ne_nil f epics hne hall)
    refine ⟨m, ?_, hmem, hle⟩
    rw [hm]
    rfl
  · rintro ⟨e, he, hnone⟩
    have hall : epics.all (fun e => (f e).isSome) = false := by
      cases hb : epics.all (fun e => (f e).isSome)
      · rfl
      · have := List.all_eq_true.mp hb e he
        rw [hnone] at this
        simp at this
    rw [if_neg (by simp [hall])]

theorem dateRule_max (f : RoadmapEpic → Option Date) (epics : List RoadmapEpic) :
    ((epics ≠ [] ∧ ∀ e ∈ epics, (f e).isSome = true) →
      ∃ d, (if !epics.isEmpty && epics.all (fun e => (f e).isSome)
            then some ((dateListMax (epics.filterMap f)).getD ⟨0, 0, 0⟩) else none) = some d ∧
        d ∈ epics.filterMap f ∧ ∀ x ∈ epics.filterMap f, Date.le x d)
  ∧ ((∃ e ∈ epics, f e = none) →
      (if !epics.isEmpty && epics.all (fun e => (f e).isSome)
       then some ((dateListMax (epics.filterMap f)).getD ⟨0, 0, 0⟩) else none) = none) := by
  constructor
  · rintro ⟨hne, hall⟩
    have hguard : (!epics.isEmpty && epics.all (fun e => (f e).isSome)) = true := by
      cases epics with
      | nil => exact absurd rfl hne
      | cons a t =>
        simp only [List.isEmpty_cons, Bool.not_false, Bool.true_and]
        exact List.all_eq_true.mpr hall
    rw [if_pos hguard]
    obtain ⟨m, hm, hmem, hle⟩ := dateListMax_spec (filterMap_all_isSome_ne_nil f epics hne hall)
    refine ⟨m, ?_, hmem, hle⟩
    rw [hm]
    rfl
  · rintro ⟨e, he, hnone⟩
    have hall : epics.all (fun e => (f e).isSome) = false := by
      cases hb : epics.all (fun e => (f e).isSome)
      · rfl
      · have := List.all_eq_true.mp hb e he
        rw [hnone] at this
        simp at this
    rw [if_neg (by simp [hall])]

/-- C4: in any returned roadmap, an initiative whose epic list is non-empty
with every epic carrying a start date has as its start date a minimum of
those epic start dates; if any epic lacks a start date the initiative start
is unknown; the symmetric rule holds for the end date with the maximum. -/
theorem fetchRoadmap_initiative_dates_spec :
    ∀ (cfg : Config) (client : JiraClientResponses) (today : Date) (jql : String)
      (lt : Option (List String)) (r : RoadmapResult),
      fetchRoadmap cfg client today jql lt = .ok r →
      ∀ init ∈ r.initiatives,
        ((init.epics ≠ [] ∧ ∀ e ∈ init.epics, e.start_date.isSome = true) →
          ∃ d, init.start_date = some d ∧
            d ∈ init.epics.filterMap (fun e => e.start_date) ∧
            ∀ x ∈ init.epics.filterMap (fun e => e.start_date), Date.le d x)
      ∧ ((∃ e ∈ init.epics, e.start_date = none) → init.start_date = none)
      ∧ ((init.epics ≠ [] ∧ ∀ e ∈ init.epics, e.end_date.isSome = true) →
          ∃ d, init.end_date = some d ∧
            d ∈ init.epics.filterMap (fun e => e.end_date) ∧
            ∀ x ∈ init.epics.filterMap (fun e => e.end_date), Date.le x d)
      ∧ ((∃ e ∈ init.epics, e.end_date = none) → init.end_date = none) := by
  intro cfg client today jql lt r h init hinit
  obtain ⟨raws, hprim, hne, hr⟩ := fetchRoadmap_ok_shape h
  subst hr
  rw [assembleRoadmap_initiatives] at hinit
  unfold initiativesOf at hinit
  obtain ⟨raw, hraw, hbuilt⟩ := List.mem_map.mp hinit
  subst hbuilt
  exact ⟨(dateRule_min (fun e => e.start_date) _).1,
    (dateRule_min (fun e => e.start_date) _).2,
    (dateRule_max (fun e => e.end_date) _).1,
    (dateRule_max (fun e => e.end_date) _).2⟩

/-- Witness for C4 at the concrete fetch where EPIC-2 lacks a start date:
the initiative start is unknown. -/
theorem fetchRoadmap_initiative_dates_spec_witness :
    (resMixedW.initiatives.headD dummyInitW).start_date = none :=
  (fetchRoadmap_initiative_dates_spec cfgW clientMixedW dW "roadmap query" none resMixedW rfl
      (resMixedW.initiatives.headD dummyInitW) (by decide)).2.1
    ⟨(resMixedW.initiatives.headD dummyInitW).epics.getD 1 dummyEpicW, by decide, by decide⟩

/-! ### C9 — child-progress rollup -/

/-- C9: in the rollup, a returned child item whose parent is a known epic
key increments that parent's total by exactly one, and additionally exactly
the bucket matching its status category (done, cancelled, indeterminate →
inProgress) while a new-category item touches no bucket; consequently
done + cancelled + inProgress never exceeds total for any tallied epic; and
a failed child-item query degrades every epic of the returned roadmap to
all-zero counts instead of aborting. -/
theorem story_rollup_spec :
    (∀ (keys : List String) (sc : List (String × StoryCounts)) (story : RawIssue),
        story.parentKey ≠ "" → story.parentKey ∈ keys →
        ((fbLookup (storyStep keys sc story) story.parentKey).getD {}).total
            = ((fbLookup sc story.parentKey).getD {}).total + 1
        ∧ (get_status_category story.status = "done" →
            ((fbLookup (storyStep keys sc story) story.parentKey).getD {}).done
                = ((fbLookup sc story.parentKey).getD {}).done + 1
            ∧ ((fbLookup (storyStep keys sc story) story.parentKey).getD {}).cancelled
                = ((fbLookup sc story.parentKey).getD {}).cancelled
            ∧ ((fbLookup (storyStep keys sc story) story.parentKey).getD {}).inprogress
                = ((fbLookup sc story.parentKey).getD {}).inprogress)
        ∧ (get_status_category story.status = "cancelled" →
            ((fbLookup (storyStep keys sc story) story.parentKey).getD {}).done
                = ((fbLookup sc story.parentKey).getD {}).done
            ∧ ((fbLookup (storyStep keys sc story) story.parentKey).getD {}).cancelled
                = ((fbLookup sc story.parentKey).getD {}).cancelled + 1
            ∧ ((fbLookup (storyStep keys sc story) story.parentKey).getD {}).inprogress
                = ((fbLookup sc story.parentKey).getD {}).inprogress)
        ∧ (get_status_category story.status = "indeterminate" →
            ((fbLookup (storyStep keys sc story) story.parentKey).getD {}).done
                = ((fbLookup sc story.parentKey).getD {}).done
            ∧ ((fbLookup (storyStep keys sc story) story.parentKey).getD {}).cancelled
                = ((fbLookup sc story.parentKey).getD {}).cancelled
            ∧ ((fbLookup (storyStep keys sc story) story.parentKey).getD {}).inprogress
                = ((fbLookup sc story.parentKey).getD {}).inprogress + 1)
        ∧ (get_status_category story.status = "new" →
            ((fbLookup (storyStep keys sc story) story.parentKey).getD {}).done
                = ((fbLookup sc story.parentKey).getD {}).done
            ∧ ((fbLookup (storyStep keys sc story) story.parentKey).getD {}).cancelled
                = ((fbLookup sc story.parentKey).getD {}).cancelled
            ∧ ((fbLookup (storyStep keys sc story) story.parentKey).getD {}).inprogress
                = ((fbLookup sc story.parentKey).getD {}).inprogress))
  ∧ (∀ (keys : List String) (stories : List RawIssue) (pr : String × StoryCounts),
        pr ∈ tallyStories keys stories →
        pr.2.done + pr.2.cancelled + pr.2.inprogress ≤ pr.2.total)
  ∧ (∀ (cfg : Config) (client : JiraClientResponses) (today : Date) (jql : String)
        (lt : Option (List String)) (e : JiraClientError) (r : RoadmapResult),
        client.searchStories = .error e →
        fetchRoadmap cfg client today jql lt = .ok r →
        ∀ init ∈ r.initiatives, ∀ ep ∈ init.epics,
          ep.done_stories = 0 ∧ ep.cancelled_stories = 0 ∧
          ep.inprogress_stories = 0 ∧ ep.total_stories = 0) := by
  refine ⟨?_, ?_, ?_⟩
  · intro keys sc story hne hmem
    have hc : ¬(story.parentKey = "" ∨ story.parentKey ∉ keys) := by
      intro hor
      rcases hor with h | h
      · exact hne h
      · exact h hmem
    simp only [storyStep]
    rw [if_neg hc, fbLookup_dictSet_self]
    split_ifs with h1 h2 h3 <;>
      refine ⟨rfl, ?_, ?_, ?_, ?_⟩ <;> intro hcat <;>
      first
      | exact ⟨rfl, rfl, rfl⟩
      | simp_all
  · intro keys stories pr hpr
    unfold tallyStories at hpr
    refine foldl_inv
      (P := fun sc : List (String × StoryCounts) =>
        ∀ pr ∈ sc, pr.2.done + pr.2.cancelled + pr.2.inprogress ≤ pr.2.total)
      _ ?_ stories [] (by simp) pr hpr
    intro sc story hsc
    simp only [storyStep]
    by_cases hg : story.parentKey = "" ∨ story.parentKey ∉ keys
    · rw [if_pos hg]; exact hsc
    · rw [if_neg hg]
      intro q hq
      have hold : ((fbLookup sc story.parentKey).getD {}).done
          + ((fbLookup sc story.parentKey).getD {}).cancelled
          + ((fbLookup sc story.parentKey).getD {}).inprogress
          ≤ ((fbLookup sc story.parentKey).getD {}).total := by
        cases hl : fbLookup sc story.parentKey with
        | none => exact Nat.le.refl
        | some c => exact hsc (story.parentKey, c) (fbLookup_mem hl)
      rcases dictSet_mem hq with hm | hm
      · exact hsc q hm
      · rw [hm]
        split_ifs with h1 h2 h3 <;> dsimp only <;> omega
  · intro cfg client today jql lt e r hst hfetch init hinit ep hep
    obtain ⟨raws, hprim, hne, hr⟩ := fetchRoadmap_ok_shape hfetch
    subst hr
    rw [assembleRoadmap_initiatives] at hinit
    unfold initiativesOf at hinit
    obtain ⟨raw, hraw, hbuilt⟩ := List.mem_map.mp hinit
    subst hbuilt
    rw [buildInitiative_epics] at hep
    have hsc : storyCountsOf client lt raws = [] := by
      unfold storyCountsOf
      rw [hst, guardedAux_error]
      rfl
    rw [hsc] at hep
    obtain ⟨k, rawE, hk, hbe⟩ := epicsOfInitiative_mem hep
    subst hbe
    exact ⟨rfl, rfl, rfl, rfl⟩

/-- Witness for C9 at a concrete done-category story tallied under its
parent epic. -/
theorem story_rollup_spec_witness :
    ((fbLookup (storyStep ["EPIC-1"] [] storyRawW) "EPIC-1").getD {}).total
      = ((fbLookup ([] : List (String × StoryCounts)) "EPIC-1").getD {}).total + 1 :=
  (story_rollup_spec.1 ["EPIC-1"] [] storyRawW (by decide) (by decide)).1

/-! ### C6 — timeline bounds -/

theorem nextDay_month (d : Date) :
    d.year < (nextDay d).year ∨ ((nextDay d).year = d.year ∧ d.month ≤ (nextDay d).month) := by
  unfold nextDay
  split_ifs <;> dsimp only <;> omega

theorem nextDay5_month (d : Date) :
    d.year < (nextDay (nextDay (nextDay (nextDay (nextDay d))))).year ∨
    ((nextDay (nextDay (nextDay (nextDay (nextDay d))))).year = d.year ∧
      d.month ≤ (nextDay (nextDay (nextDay (nextDay (nextDay d))))).month) := by
  have e1 := nextDay_month d
  have e2 := nextDay_month (nextDay d)
  have e3 := nextDay_month (nextDay (nextDay d))
  have e4 := nextDay_month (nextDay (nextDay (nextDay d)))
  have e5 := nextDay_month (nextDay (nextDay (nextDay (nextDay d))))
  omega

theorem padForward_ge (nmo te : Date) (hle : Date.le nmo te) (hday : nmo.day = 1) :
    Date.le nmo
      { nextDay (nextDay (nextDay (nextDay (nextDay { te with day := 28 })))) with day := 1 } := by
  have h5 := nextDay5_month { te with day := 28 }
  unfold Date.le at hle ⊢
  dsimp only at h5 ⊢
  omega

theorem computeTimeline_spec (today : Date) (ds : List Date) :
    Date.le (nineMonthsOut today) (computeTimeline today ds).2 ∧
    (computeTimeline today ds).1.day = 1 ∧ (computeTimeline today ds).2.day = 1 := by
  unfold computeTimeline
  dsimp only
  refine ⟨?_, rfl, rfl⟩
  apply padForward_ge
  · split_ifs with h
    · exact Date.le_refl _
    · exact Date.not_lt_le h
  · rfl

/-- C6: for every input, the end bound of any returned roadmap is no
earlier than the first day of the month nine months after the computation
date (month + 9 with year carry), and both returned bounds fall exactly on
day 1 of a calendar month after the outward padding. -/
theorem fetchRoadmap_timeline_spec :
    ∀ (cfg : Config) (client : JiraClientResponses) (today : Date) (jql : String)
      (lt : Option (List String)) (r : RoadmapResult),
      fetchRoadmap cfg client today jql lt = .ok r →
      Date.le (nineMonthsOut today) r.timeline_end ∧
      r.timeline_start.day = 1 ∧ r.timeline_end.day = 1 := by
  intro cfg client today jql lt r h
  obtain ⟨raws, hprim, hne, hr⟩ := fetchRoadmap_ok_shape h
  subst hr
  obtain ⟨hs, he⟩ := assembleRoadmap_bounds cfg client today jql lt raws
  rw [hs, he]
  exact ⟨(computeTimeline_spec today _).1, (computeTimeline_spec today _).2.1,
    (computeTimeline_spec today _).2.2⟩

/-- Witness for C6 at the concrete successful fetch: the end bound
2026-08-01 is past 2026-07-01 (nine months from 2025-10-12) and both bounds
land on day 1. -/
theorem fetchRoadmap_timeline_spec_witness :
    Date.le (nineMonthsOut dW) resHappyW.timeline_end ∧
    resHappyW.timeline_start.day = 1 ∧ resHappyW.timeline_end.day = 1 :=
  fetchRoadmap_timeline_spec cfgW clientHappyW dW "roadmap query" none resHappyW rfl

end JiraRoadmap
